import Mathlib

/-!
Shallow embedding of the `managers` package of `shared-state-manager`
(`src/shared-state-manager.go`).

Modelling decisions, all driven by the source:

* Go's `interface{}` payload is modelled by the inductive `Value`.  Go
  interface equality (`oldValue != value`) compares dynamic types first:
  values of different dynamic types are unequal without a fault, while
  comparing two values of the same non-comparable dynamic type (slice,
  map, function) is a run-time panic.  `goEq` returns `none` exactly in
  the panic case.  Non-comparable payloads carry their Go dynamic-type
  name and an identity tag; their contents are never inspected because
  comparing them always panics.
* A subscriber channel is modelled by its identity (a `Nat`); a send on
  a channel is an `Event` (channel id, payload).  Each operation returns
  the list of sends it performs, in program order.
* Operations that may evaluate the panicking comparison return
  `Option`; `none` is the panic.
* The mutex serialises every operation, so each locked section is one
  atomic step.  `time.AfterFunc` timers are modelled by identifiers:
  `activeTimers` holds the armed, not-yet-stopped, not-yet-fired timers
  with the key each one expires; `timer.Stop()` removes the identifier;
  a fire event (`fireTimer`) may consume any armed timer.  Real-time
  durations are abstracted to the order of these atomic events.
-/

/-- Model of a Go `interface{}` value stored in the state map.
`slice`, `mapV` and `funcV` are the non-comparable dynamic types; they
carry the Go type name and an identity tag only, since inspecting their
contents is never needed (comparing them panics). -/
inductive Value where
  | nilV
  | str (s : String)
  | intV (n : Int)
  | boolV (b : Bool)
  | expNotif (key : String)
  | slice (ty : String) (id : Nat)
  | mapV (ty : String) (id : Nat)
  | funcV (ty : String) (id : Nat)
  deriving DecidableEq

/-- Go interface equality `a == b`: `none` is the run-time panic that
occurs when both operands have the same non-comparable dynamic type;
operands of different dynamic types compare unequal without a panic. -/
def goEq : Value → Value → Option Bool
  | .nilV, .nilV => some true
  | .str a, .str b => some (decide (a = b))
  | .intV a, .intV b => some (decide (a = b))
  | .boolV a, .boolV b => some (decide (a = b))
  | .expNotif a, .expNotif b => some (decide (a = b))
  | .slice t1 _, .slice t2 _ => if t1 = t2 then none else some false
  | .mapV t1 _, .mapV t2 _ => if t1 = t2 then none else some false
  | .funcV t1 _, .funcV t2 _ => if t1 = t2 then none else some false
  | _, _ => some false

/-- Go interface inequality `a != b` (panic propagates). -/
def goNe (a b : Value) : Option Bool := (goEq a b).map (fun r => !r)

/-- Whether the value's Go dynamic type is comparable (slices, maps and
functions are the non-comparable kinds). -/
def comparableVal : Value → Bool
  | .slice _ _ => false
  | .mapV _ _ => false
  | .funcV _ _ => false
  | _ => true

/-- Subscription holds the channel and conditional flag for each
subscriber (source struct `Subscription`). -/
structure Subscription where
  Channel : Nat
  ConditionalNotifications : Bool
  deriving DecidableEq

/-- One send on a subscriber channel: (channel identity, payload). -/
abbrev Event := Nat × Value

/-- SharedStateManager state: the three co-located maps, plus the timer
bookkeeping that models `time.AfterFunc`/`Stop`.  `timers` is the Go
`timers` map (key to the identity of the timer stored for it);
`activeTimers` is the set of armed and unstopped timers with their keys;
`nextTimerId` generates fresh timer identities. -/
structure SharedStateManager where
  stateMap : String → Option Value
  timers : String → Option Nat
  activeTimers : List (Nat × String)
  nextTimerId : Nat
  subscribers : String → List Subscription

/-- NewSharedStateManager creates a new, empty instance. -/
def NewSharedStateManager : SharedStateManager :=
  { stateMap := fun _ => none
    timers := fun _ => none
    activeTimers := []
    nextTimerId := 0
    subscribers := fun _ => [] }

/-- One iteration of the dispatch loop's guard, with Go's left-to-right
short-circuit of `!sub.ConditionalNotifications || !exists ||
oldValue != value`: the comparison (and hence the possible panic) is
reached only when the flag is set and the key existed. -/
def deliverTo (sub : Subscription) (value : Value) (ex : Bool) (oldValue : Value) : Option Bool :=
  if !sub.ConditionalNotifications then some true
  else if !ex then some true
  else goNe oldValue value

/-- The dispatch loop of `notifySubscribers` over a subscriber list:
returns the sends performed in order, or `none` if the guard panics. -/
def notifyLoop (subs : List Subscription) (value : Value) (ex : Bool) (oldValue : Value) :
    Option (List Event) :=
  match subs with
  | [] => some []
  | sub :: rest =>
    match deliverTo sub value ex oldValue with
    | none => none
    | some b =>
      match notifyLoop rest value ex oldValue with
      | none => none
      | some evs => some (if b then (sub.Channel, value) :: evs else evs)

/-- notifySubscribers notifies all subscribers of a key's value change. -/
def SharedStateManager.notifySubscribers (ssm : SharedStateManager) (key : String)
    (value : Value) (ex : Bool) (oldValue : Value) : Option (List Event) :=
  notifyLoop (ssm.subscribers key) value ex oldValue

/-- Set sets a value for a given key: capture the old value and its
existence, overwrite, then dispatch.  A missing old value is the zero
interface `nil`.  `none` is the panic of the dispatch guard. -/
def SharedStateManager.Set (ssm : SharedStateManager) (key : String) (value : Value) :
    Option (SharedStateManager × List Event) :=
  let oldValue := ssm.stateMap key
  match ssm.notifySubscribers key value oldValue.isSome (oldValue.getD .nilV) with
  | none => none
  | some evs =>
    some ({ ssm with stateMap := fun k => if k = key then some value else ssm.stateMap k }, evs)

/-- SetWithTimeout sets a value with an expiration: overwrite, dispatch
with `exists = false` and `oldValue = nil`, stop any existing timer for
the key, then arm a fresh timer for the key.  The duration only decides
when the armed timer fires, which the model abstracts to event order. -/
def SharedStateManager.SetWithTimeout (ssm : SharedStateManager) (key : String) (value : Value)
    (duration : Int) : Option (SharedStateManager × List Event) :=
  match ssm.notifySubscribers key value false .nilV with
  | none => none
  | some evs =>
    let stopped := match ssm.timers key with
      | some t => ssm.activeTimers.filter (fun p => decide (p.1 ≠ t))
      | none => ssm.activeTimers
    let n := ssm.nextTimerId
    some ({ stateMap := fun k => if k = key then some value else ssm.stateMap k
            timers := fun k => if k = key then some n else ssm.timers k
            activeTimers := (n, key) :: stopped
            nextTimerId := n + 1
            subscribers := ssm.subscribers }, evs)

/-- expireKey handles the firing of a key's timer: remove the entry,
stop and remove the key's timer record if present, and deliver an
expiration notification to every current subscriber of the key. -/
def SharedStateManager.expireKey (ssm : SharedStateManager) (key : String) :
    SharedStateManager × List Event :=
  let cleared : String → Option Value := fun k => if k = key then none else ssm.stateMap k
  let evs : List Event := (ssm.subscribers key).map (fun sub => (sub.Channel, .expNotif key))
  match ssm.timers key with
  | some t =>
    ({ ssm with stateMap := cleared
                timers := fun k => if k = key then none else ssm.timers k
                activeTimers := ssm.activeTimers.filter (fun p => decide (p.1 ≠ t)) }, evs)
  | none => ({ ssm with stateMap := cleared }, evs)

/-- Delete removes a key-value pair: remove the entry, stop and remove
any timer for the key, then unconditionally deliver an expiration
notification to every current subscriber of the key (the source body is
line for line that of `expireKey`). -/
def SharedStateManager.Delete (ssm : SharedStateManager) (key : String) :
    SharedStateManager × List Event :=
  let cleared : String → Option Value := fun k => if k = key then none else ssm.stateMap k
  let evs : List Event := (ssm.subscribers key).map (fun sub => (sub.Channel, .expNotif key))
  match ssm.timers key with
  | some t =>
    ({ ssm with stateMap := cleared
                timers := fun k => if k = key then none else ssm.timers k
                activeTimers := ssm.activeTimers.filter (fun p => decide (p.1 ≠ t)) }, evs)
  | none => ({ ssm with stateMap := cleared }, evs)

/-- Get retrieves a value for a given key; a missing key yields the zero
interface `nil` and `false`. -/
def SharedStateManager.Get (ssm : SharedStateManager) (key : String) : Value × Bool :=
  match ssm.stateMap key with
  | some v => (v, true)
  | none => (.nilV, false)

/-- GetString retrieves a string value: absent keys and non-string
payloads both yield `("", false)` (the failed type assertion returns the
zero string). -/
def SharedStateManager.GetString (ssm : SharedStateManager) (key : String) : String × Bool :=
  match ssm.stateMap key with
  | none => ("", false)
  | some (.str s) => (s, true)
  | some _ => ("", false)

/-- GetStruct retrieves a value for a given key, with an explicit
not-found branch returning `nil, false`. -/
def SharedStateManager.GetStruct (ssm : SharedStateManager) (key : String) : Value × Bool :=
  match ssm.stateMap key with
  | none => (.nilV, false)
  | some v => (v, true)

/-- Subscribe appends a subscriber for a specific key. -/
def SharedStateManager.Subscribe (ssm : SharedStateManager) (key : String) (ch : Nat)
    (conditional : Bool) : SharedStateManager :=
  { ssm with subscribers := fun k =>
      if k = key then ssm.subscribers key ++ [⟨ch, conditional⟩] else ssm.subscribers k }

/-- Whether the stored value's dynamic type is `string` (the type
assertion of `GetString`). -/
def isStringVal : Value → Bool
  | .str _ => true
  | _ => false

/-- The fire event of the armed timer with identity `t`: a timer that is
armed and unstopped runs `expireKey` on its key and is consumed;
a stopped, already-fired or never-armed identity cannot fire. -/
def SharedStateManager.fireTimer (ssm : SharedStateManager) (t : Nat) :
    Option (SharedStateManager × List Event) :=
  match ssm.activeTimers.find? (fun p => decide (p.1 = t)) with
  | none => none
  | some p =>
    let r := ssm.expireKey p.2
    some ({ r.1 with activeTimers := r.1.activeTimers.filter (fun q => decide (q.1 ≠ t)) }, r.2)

/-- Run a sequence of attempted timer fires; identities that are not
armed do nothing.  Returns the final state and all events delivered. -/
def runFires : SharedStateManager → List Nat → SharedStateManager × List Event
  | s, [] => (s, [])
  | s, t :: ts =>
    match s.fireTimer t with
    | none => runFires s ts
    | some r =>
      let rest := runFires r.1 ts
      (rest.1, r.2 ++ rest.2)

/-- The dispatch guard of `notifySubscribers` as a total predicate,
defined on the executions where the guard does not panic. -/
def shouldNotify (sub : Subscription) (value : Value) (ex : Bool) (oldValue : Value) : Bool :=
  !sub.ConditionalNotifications || !ex || (goNe oldValue value == some true)

/-- Number of expiration notifications for key `k` in an event list. -/
def expCount (k : String) (evs : List Event) : Nat :=
  evs.countP (fun e => decide (e.2 = Value.expNotif k))

/-- Number of armed timers whose key is `k`. -/
def kTimers (s : SharedStateManager) (k : String) : Nat :=
  s.activeTimers.countP (fun p => decide (p.2 = k))

/-- Go interface equality is reflexive on comparable values. -/
theorem goEq_refl (v : Value) (h : comparableVal v = true) : goEq v v = some true := by
  cases v <;> simp_all [goEq, comparableVal]

/-- Comparing anything against a value of comparable dynamic type never
panics: either the dynamic types differ (unequal, no panic) or they
agree on a comparable type. -/
theorem goEq_isSome (old v : Value) (h : comparableVal v = true) : (goEq old v).isSome := by
  cases old <;> cases v <;> simp_all [goEq, comparableVal]

/-- With `exists = false` the dispatch guard short-circuits before the
comparison: every subscriber is notified and no panic can occur. -/
theorem notifyLoop_not_exists (subs : List Subscription) (v old : Value) :
    notifyLoop subs v false old = some (subs.map (fun sub => (sub.Channel, v))) := by
  induction subs with
  | nil => rfl
  | cons sub rest ih =>
      cases hc : sub.ConditionalNotifications <;>
        simp [notifyLoop, deliverTo, hc, ih]

/-- A non-panicking dispatch delivers the new value exactly to the
subscribers passing the guard, in registration order. -/
theorem notifyLoop_filter (v old : Value) (ex : Bool) :
    ∀ (subs : List Subscription) (evs : List Event),
      notifyLoop subs v ex old = some evs →
      evs = (subs.filter (fun sub => shouldNotify sub v ex old)).map
              (fun sub => (sub.Channel, v)) := by
  intro subs
  induction subs with
  | nil => intro evs h; simpa [notifyLoop] using h.symm
  | cons sub rest ih =>
      intro evs h
      simp only [notifyLoop] at h
      cases hd : deliverTo sub v ex old with
      | none => rw [hd] at h; exact absurd h (by simp)
      | some b =>
          rw [hd] at h
          cases hr : notifyLoop rest v ex old with
          | none => rw [hr] at h; exact absurd h (by simp)
          | some evs' =>
              rw [hr] at h
              simp only [Option.some.injEq] at h
              subst h
              have hb : shouldNotify sub v ex old = b := by
                cases hc : sub.ConditionalNotifications <;>
                  cases hex : ex <;>
                  simp_all [deliverTo, shouldNotify]
              rw [List.filter_cons, hb]
              cases b <;> simp [ih _ hr]

/-- The dispatch loop cannot panic when the new value's dynamic type is
comparable. -/
theorem notifyLoop_isSome (v old : Value) (ex : Bool) (h : comparableVal v = true) :
    ∀ subs : List Subscription, (notifyLoop subs v ex old).isSome := by
  intro subs
  induction subs with
  | nil => simp [notifyLoop]
  | cons sub rest ih =>
      have hd : (deliverTo sub v ex old).isSome := by
        cases hc : sub.ConditionalNotifications <;> cases hex : ex <;>
          simp [deliverTo, goNe, hc, Option.isSome_map, goEq_isSome old v h]
      simp only [notifyLoop]
      cases hde : deliverTo sub v ex old with
      | none => rw [hde] at hd; simp at hd
      | some b =>
          cases hre : notifyLoop rest v ex old with
          | none => rw [hre] at ih; simp at ih
          | some evs => simp

/-- Shape of a successful `Set`: the state change is exactly the map
overwrite, and the events are those of the dispatch loop run on the
captured old state. -/
theorem Set_spec (s : SharedStateManager) (k : String) (v : Value)
    (s' : SharedStateManager) (evs : List Event) (h : s.Set k v = some (s', evs)) :
    s' = { s with stateMap := fun k' => if k' = k then some v else s.stateMap k' } ∧
    notifyLoop (s.subscribers k) v (s.stateMap k).isSome ((s.stateMap k).getD .nilV)
      = some evs := by
  simp only [SharedStateManager.Set, SharedStateManager.notifySubscribers] at h
  cases hn : notifyLoop (s.subscribers k) v (s.stateMap k).isSome ((s.stateMap k).getD .nilV) with
  | none => rw [hn] at h; exact absurd h (by simp)
  | some evs' =>
      rw [hn] at h
      simp only [Option.some.injEq, Prod.mk.injEq] at h
      exact ⟨h.1.symm, by rw [← h.2]⟩

/-- Closed form of `SetWithTimeout`: it always succeeds, notifies every
subscriber of the key, stops the key's previous timer and arms a fresh
one. -/
theorem SetWithTimeout_eq (s : SharedStateManager) (k : String) (v : Value) (d : Int) :
    s.SetWithTimeout k v d = some
      ({ stateMap := fun k' => if k' = k then some v else s.stateMap k'
         timers := fun k' => if k' = k then some s.nextTimerId else s.timers k'
         activeTimers := (s.nextTimerId, k) ::
           (match s.timers k with
            | some t => s.activeTimers.filter (fun p => decide (p.1 ≠ t))
            | none => s.activeTimers)
         nextTimerId := s.nextTimerId + 1
         subscribers := s.subscribers },
       (s.subscribers k).map (fun sub => (sub.Channel, v))) := by
  simp [SharedStateManager.SetWithTimeout, SharedStateManager.notifySubscribers,
    notifyLoop_not_exists]

/-- The source bodies of `Delete` and `expireKey` coincide line for
line, so the two are the same function of the state. -/
theorem Delete_eq_expireKey (s : SharedStateManager) (k : String) :
    s.Delete k = s.expireKey k := rfl

/-- expireKey removes the key's entry. -/
theorem expireKey_stateMap (s : SharedStateManager) (k k' : String) :
    (s.expireKey k).1.stateMap k' = if k' = k then none else s.stateMap k' := by
  cases h : s.timers k <;> simp [SharedStateManager.expireKey, h]

/-- expireKey removes the key's timer record and keeps the others. -/
theorem expireKey_timers (s : SharedStateManager) (k k' : String) :
    (s.expireKey k).1.timers k' = if k' = k ∧ (s.timers k).isSome then none else s.timers k' := by
  cases h : s.timers k with
  | none =>
      simp only [SharedStateManager.expireKey, h]
      by_cases hk : k' = k <;> simp [hk, h]
  | some t =>
      simp only [SharedStateManager.expireKey, h]
      by_cases hk : k' = k <;> simp [hk, h]

/-- expireKey leaves no timer record for its key. -/
theorem expireKey_timers_self (s : SharedStateManager) (k : String) :
    (s.expireKey k).1.timers k = none := by
  cases h : s.timers k <;> simp [expireKey_timers, h]

/-- expireKey does not touch the subscriber registry. -/
theorem expireKey_subscribers (s : SharedStateManager) (k : String) :
    (s.expireKey k).1.subscribers = s.subscribers := by
  cases h : s.timers k <;> simp [SharedStateManager.expireKey, h]

/-- expireKey does not touch the timer-identity counter. -/
theorem expireKey_nextTimerId (s : SharedStateManager) (k : String) :
    (s.expireKey k).1.nextTimerId = s.nextTimerId := by
  cases h : s.timers k <;> simp [SharedStateManager.expireKey, h]

/-- The armed timers surviving expireKey are a sublist of the previous
ones (timers are only stopped, never created). -/
theorem expireKey_active_sublist (s : SharedStateManager) (k : String) :
    (s.expireKey k).1.activeTimers.Sublist s.activeTimers := by
  cases h : s.timers k <;> simp [SharedStateManager.expireKey, h, List.filter_sublist]

/-- expireKey delivers an expiration notification to every current
subscriber of the key, unconditionally and in registration order. -/
theorem expireKey_events (s : SharedStateManager) (k : String) :
    (s.expireKey k).2 = (s.subscribers k).map (fun sub => (sub.Channel, Value.expNotif k)) := by
  cases h : s.timers k <;> simp [SharedStateManager.expireKey, h]

/-- A timer identity absent from the armed set cannot fire. -/
theorem fireTimer_eq_none (s : SharedStateManager) (t : Nat)
    (h : ∀ p ∈ s.activeTimers, p.1 ≠ t) : s.fireTimer t = none := by
  have hf : s.activeTimers.find? (fun p => decide (p.1 = t)) = none := by
    rw [List.find?_eq_none]
    intro p hp
    simpa using h p hp
  simp [SharedStateManager.fireTimer, hf]

/-- Decomposition of a successful fire: some armed timer with identity
`t` and key `k'` is consumed, `expireKey k'` runs, and the fired
identity is retired from the armed set. -/
theorem fireTimer_spec (s : SharedStateManager) (t : Nat) (s' : SharedStateManager)
    (evs : List Event) (h : s.fireTimer t = some (s', evs)) :
    ∃ k', (t, k') ∈ s.activeTimers ∧
      evs = (s.subscribers k').map (fun sub => (sub.Channel, Value.expNotif k')) ∧
      s' = { (s.expireKey k').1 with activeTimers :=
               (s.expireKey k').1.activeTimers.filter (fun q => decide (q.1 ≠ t)) } := by
  simp only [SharedStateManager.fireTimer] at h
  cases hf : s.activeTimers.find? (fun p => decide (p.1 = t)) with
  | none => rw [hf] at h; exact absurd h (by simp)
  | some p =>
      rw [hf] at h
      simp only [Option.some.injEq, Prod.mk.injEq] at h
      have hpt : p.1 = t := by simpa using List.find?_some hf
      have hpm : p ∈ s.activeTimers := List.mem_of_find?_eq_some hf
      refine ⟨p.2, ?_, ?_, ?_⟩
      · rw [← hpt]; exact hpm
      · rw [← h.2, expireKey_events]
      · rw [← h.1]

/-- Firing a timer never touches the subscriber registry. -/
theorem fireTimer_subscribers (s : SharedStateManager) (t : Nat) (s' : SharedStateManager)
    (evs : List Event) (h : s.fireTimer t = some (s', evs)) :
    s'.subscribers = s.subscribers := by
  obtain ⟨k', _, _, hs⟩ := fireTimer_spec s t s' evs h
  rw [hs]
  simpa using expireKey_subscribers s k'

/-- Firing a timer only removes armed timers, never adds them. -/
theorem fireTimer_active_sublist (s : SharedStateManager) (t : Nat) (s' : SharedStateManager)
    (evs : List Event) (h : s.fireTimer t = some (s', evs)) :
    s'.activeTimers.Sublist s.activeTimers := by
  obtain ⟨k', _, _, hs⟩ := fireTimer_spec s t s' evs h
  rw [hs]
  exact (List.filter_sublist _).trans (expireKey_active_sublist s k')

/-- Well-formedness of the store state, maintained by every operation
from the empty store: each armed timer is the one recorded in the timer
map for its key, armed identities are below the fresh-identity counter
and pairwise distinct, and a key without an entry has no timer record. -/
structure GoodState (s : SharedStateManager) : Prop where
  timersOf : ∀ p ∈ s.activeTimers, s.timers p.2 = some p.1
  bounded : ∀ p ∈ s.activeTimers, p.1 < s.nextTimerId
  nodupIds : (s.activeTimers.map Prod.fst).Nodup
  stateTimers : ∀ k, s.stateMap k = none → s.timers k = none
  timersBounded : ∀ k t, s.timers k = some t → t < s.nextTimerId
  timersInj : ∀ k1 k2 t, s.timers k1 = some t → s.timers k2 = some t → k1 = k2

/-- One atomic store operation (each Go method's critical section, or a
timer firing). -/
inductive Step : SharedStateManager → SharedStateManager → Prop where
  | set (s : SharedStateManager) (k : String) (v : Value) (s' : SharedStateManager)
      (evs : List Event) : s.Set k v = some (s', evs) → Step s s'
  | setWithTimeout (s : SharedStateManager) (k : String) (v : Value) (d : Int)
      (s' : SharedStateManager) (evs : List Event) :
      s.SetWithTimeout k v d = some (s', evs) → Step s s'
  | deleteKey (s : SharedStateManager) (k : String) : Step s (s.Delete k).1
  | subscribe (s : SharedStateManager) (k : String) (ch : Nat) (b : Bool) :
      Step s (s.Subscribe k ch b)
  | fire (s : SharedStateManager) (t : Nat) (s' : SharedStateManager) (evs : List Event) :
      s.fireTimer t = some (s', evs) → Step s s'

/-- The store states that can arise in a program: those reachable from
a fresh store by the atomic operations. -/
def Reachable (s : SharedStateManager) : Prop :=
  Relation.ReflTransGen Step NewSharedStateManager s

/-- The fresh store is well formed. -/
theorem goodState_new : GoodState NewSharedStateManager := by
  refine ⟨?_, ?_, ?_, ?_, ?_, ?_⟩ <;> simp [NewSharedStateManager]

/-- Set preserves well-formedness (it only touches the state map, and
only to introduce an entry). -/
theorem goodState_Set (s : SharedStateManager) (k : String) (v : Value)
    (s' : SharedStateManager) (evs : List Event) (h : s.Set k v = some (s', evs))
    (g : GoodState s) : GoodState s' := by
  obtain ⟨hs, -⟩ := Set_spec s k v s' evs h
  subst hs
  refine ⟨g.timersOf, g.bounded, g.nodupIds, ?_, g.timersBounded, g.timersInj⟩
  intro k' hk'
  simp only at hk'
  by_cases hkk : k' = k
  · rw [if_pos hkk] at hk'; exact absurd hk' (by simp)
  · rw [if_neg hkk] at hk'; exact g.stateTimers k' hk'

/-- SetWithTimeout preserves well-formedness: the stopped timer leaves
the armed set, the fresh timer is recorded for its key with a fresh
identity. -/
theorem goodState_SetWithTimeout (s : SharedStateManager) (k : String) (v : Value) (d : Int)
    (s' : SharedStateManager) (evs : List Event) (h : s.SetWithTimeout k v d = some (s', evs))
    (g : GoodState s) : GoodState s' := by
  rw [SetWithTimeout_eq] at h
  simp only [Option.some.injEq, Prod.mk.injEq] at h
  obtain ⟨hs, -⟩ := h
  have main : ∀ stopped : List (Nat × String), stopped.Sublist s.activeTimers →
      (∀ p ∈ stopped, s.timers k ≠ some p.1) →
      GoodState { stateMap := fun k' => if k' = k then some v else s.stateMap k'
                  timers := fun k' => if k' = k then some s.nextTimerId else s.timers k'
                  activeTimers := (s.nextTimerId, k) :: stopped
                  nextTimerId := s.nextTimerId + 1
                  subscribers := s.subscribers } := by
    intro stopped hsl hstop
    constructor
    · intro p hp
      simp only [List.mem_cons] at hp
      rcases hp with hp | hp
      · rw [hp]; simp
      · have hmem := hsl.mem hp
        have hkey : p.2 ≠ k := fun he =>
          hstop p hp (by rw [← he]; exact g.timersOf p hmem)
        simpa [hkey] using g.timersOf p hmem
    · intro p hp
      simp only [List.mem_cons] at hp
      rcases hp with hp | hp
      · rw [hp]; simp
      · exact Nat.lt_succ_of_lt (g.bounded p (hsl.mem hp))
    · simp only [List.map_cons, List.nodup_cons]
      refine ⟨?_, (hsl.map Prod.fst).nodup g.nodupIds⟩
      intro hmem
      obtain ⟨p, hp, hp1⟩ := List.mem_map.mp hmem
      exact absurd (hp1 ▸ g.bounded p (hsl.mem hp)) (by simp)
    · intro k' hk'
      simp only at hk' ⊢
      by_cases hkk : k' = k
      · rw [if_pos hkk] at hk'; exact absurd hk' (by simp)
      · rw [if_neg hkk] at hk' ⊢; exact g.stateTimers k' hk'
    · intro k' t' hk'
      simp only at hk' ⊢
      by_cases hkk : k' = k
      · rw [if_pos hkk] at hk'
        simp only [Option.some.injEq] at hk'
        omega
      · rw [if_neg hkk] at hk'
        exact Nat.lt_succ_of_lt (g.timersBounded k' t' hk')
    · intro k1 k2 t' h1 h2
      simp only at h1 h2
      by_cases hk1 : k1 = k <;> by_cases hk2 : k2 = k
      · rw [hk1, hk2]
      · rw [if_pos hk1] at h1
        rw [if_neg hk2] at h2
        simp only [Option.some.injEq] at h1
        have hb := g.timersBounded k2 t' h2
        omega
      · rw [if_pos hk2] at h2
        rw [if_neg hk1] at h1
        simp only [Option.some.injEq] at h2
        have hb := g.timersBounded k1 t' h1
        omega
      · rw [if_neg hk1] at h1
        rw [if_neg hk2] at h2
        exact g.timersInj k1 k2 t' h1 h2
  rw [← hs]
  cases ht : s.timers k with
  | none =>
      simp only [ht]
      exact main s.activeTimers (List.Sublist.refl _) (by simp [ht])
  | some t =>
      simp only [ht]
      refine main _ (List.filter_sublist _) ?_
      intro p hp
      have hne : ¬(p.1 = t) := by simpa using List.of_mem_filter hp
      rw [ht]
      intro he
      exact hne (by simpa using he.symm)

/-- expireKey preserves well-formedness. -/
theorem goodState_expireKey (s : SharedStateManager) (k : String)
    (g : GoodState s) : GoodState (s.expireKey k).1 := by
  cases ht : s.timers k with
  | none =>
      simp only [SharedStateManager.expireKey, ht]
      refine ⟨g.timersOf, g.bounded, g.nodupIds, ?_, g.timersBounded, g.timersInj⟩
      intro k' hk'
      simp only at hk'
      by_cases hkk : k' = k
      · rw [hkk]; exact ht
      · rw [if_neg hkk] at hk'; exact g.stateTimers k' hk'
  | some t =>
      simp only [SharedStateManager.expireKey, ht]
      constructor
      · intro p hp
        simp only at hp ⊢
        have hne : ¬(p.1 = t) := by simpa using List.of_mem_filter hp
        have hmem := List.mem_of_mem_filter hp
        have hkey : p.2 ≠ k := by
          intro he
          exact hne (by have := g.timersOf p hmem; rw [he, ht] at this; simpa using this.symm)
        rw [if_neg hkey]
        exact g.timersOf p hmem
      · intro p hp
        exact g.bounded p (List.mem_of_mem_filter hp)
      · exact (((List.filter_sublist _).map Prod.fst).nodup g.nodupIds)
      · intro k' hk'
        simp only at hk' ⊢
        by_cases hkk : k' = k
        · simp [hkk]
        · rw [if_neg hkk] at hk' ⊢; exact g.stateTimers k' hk'
      · intro k' t' hk'
        simp only at hk'
        by_cases hkk : k' = k
        · rw [if_pos hkk] at hk'; exact absurd hk' (by simp)
        · rw [if_neg hkk] at hk'; exact g.timersBounded k' t' hk'
      · intro k1 k2 t' h1 h2
        simp only at h1 h2
        by_cases hk1 : k1 = k
        · rw [if_pos hk1] at h1; exact absurd h1 (by simp)
        · by_cases hk2 : k2 = k
          · rw [if_pos hk2] at h2; exact absurd h2 (by simp)
          · rw [if_neg hk1] at h1
            rw [if_neg hk2] at h2
            exact g.timersInj k1 k2 t' h1 h2

/-- Delete preserves well-formedness. -/
theorem goodState_Delete (s : SharedStateManager) (k : String)
    (g : GoodState s) : GoodState (s.Delete k).1 := by
  rw [Delete_eq_expireKey]
  exact goodState_expireKey s k g

/-- Subscribe preserves well-formedness. -/
theorem goodState_Subscribe (s : SharedStateManager) (k : String) (ch : Nat) (b : Bool)
    (g : GoodState s) : GoodState (s.Subscribe k ch b) := by
  exact ⟨g.timersOf, g.bounded, g.nodupIds, g.stateTimers, g.timersBounded, g.timersInj⟩

/-- Firing a timer preserves well-formedness. -/
theorem goodState_fire (s : SharedStateManager) (t : Nat) (s' : SharedStateManager)
    (evs : List Event) (h : s.fireTimer t = some (s', evs)) (g : GoodState s) :
    GoodState s' := by
  obtain ⟨k', -, -, hs⟩ := fireTimer_spec s t s' evs h
  have ge := goodState_expireKey s k' g
  subst hs
  constructor
  · intro p hp
    exact ge.timersOf p (List.mem_of_mem_filter hp)
  · intro p hp
    have := ge.bounded p (List.mem_of_mem_filter hp)
    simpa [expireKey_nextTimerId] using this
  · exact (((List.filter_sublist _).map Prod.fst).nodup ge.nodupIds)
  · exact ge.stateTimers
  · exact ge.timersBounded
  · exact ge.timersInj

/-- Every atomic operation preserves well-formedness. -/
theorem goodState_step (s s' : SharedStateManager) (h : Step s s') (g : GoodState s) :
    GoodState s' := by
  cases h with
  | set k v s2 evs hop => exact goodState_Set s k v s' evs hop g
  | setWithTimeout k v d s2 evs hop => exact goodState_SetWithTimeout s k v d s' evs hop g
  | deleteKey k => exact goodState_Delete s k g
  | subscribe k ch b => exact goodState_Subscribe s k ch b g
  | fire t s2 evs hop => exact goodState_fire s t s' evs hop g

/-- Every reachable store state is well formed. -/
theorem reachable_goodState (s : SharedStateManager) (h : Reachable s) : GoodState s := by
  induction h with
  | refl => exact goodState_new
  | tail _ hstep ih => exact goodState_step _ _ hstep ih

/-- Expiration events of one `expireKey` dispatch, counted for key
`k`: all of them if the expired key is `k`, none otherwise. -/
theorem expCount_expEvents (k k' : String) (subs : List Subscription) :
    expCount k (subs.map (fun sub => (sub.Channel, Value.expNotif k'))) =
      if k' = k then subs.length else 0 := by
  simp only [expCount, List.countP_map]
  by_cases h : k' = k
  · subst h
    simp [Function.comp_def]
  · simp [Function.comp_def, h]

/-- Timer fires never touch the subscriber registry. -/
theorem runFires_subscribers (ts : List Nat) :
    ∀ s : SharedStateManager, (runFires s ts).1.subscribers = s.subscribers := by
  induction ts with
  | nil => intro s; rfl
  | cons t ts ih =>
      intro s
      simp only [runFires]
      cases hf : s.fireTimer t with
      | none => exact ih s
      | some r =>
          obtain ⟨s', evs⟩ := r
          simpa [ih s'] using fireTimer_subscribers s t s' evs hf

/-- Timer fires only consume armed timers. -/
theorem runFires_active_sublist (ts : List Nat) :
    ∀ s : SharedStateManager, (runFires s ts).1.activeTimers.Sublist s.activeTimers := by
  induction ts with
  | nil => intro s; exact List.Sublist.refl _
  | cons t ts ih =>
      intro s
      simp only [runFires]
      cases hf : s.fireTimer t with
      | none => exact ih s
      | some r =>
          obtain ⟨s', evs⟩ := r
          exact (ih s').trans (fireTimer_active_sublist s t s' evs hf)

/-- A timer identity that is not armed can never fire, no matter how
many other timers fire first. -/
theorem runFires_fireTimer_none (t : Nat) (ts : List Nat) (s : SharedStateManager)
    (h : ∀ p ∈ s.activeTimers, p.1 ≠ t) : (runFires s ts).1.fireTimer t = none :=
  fireTimer_eq_none _ t (fun p hp => h p ((runFires_active_sublist ts s).mem hp))

/-- Every armed timer surviving a fire of identity `t` has a different
identity. -/
theorem fireTimer_id_gone (s : SharedStateManager) (t : Nat) (s' : SharedStateManager)
    (evs : List Event) (h : s.fireTimer t = some (s', evs)) :
    ∀ p ∈ s'.activeTimers, p.1 ≠ t := by
  obtain ⟨k', -, -, hs'⟩ := fireTimer_spec s t s' evs h
  intro p hp
  rw [hs'] at hp
  simpa using List.of_mem_filter hp

/-- With no armed timer for `k`, no sequence of fires ever delivers an
expiration notification for `k`. -/
theorem runFires_expCount_zero (k : String) (ts : List Nat) :
    ∀ s : SharedStateManager, kTimers s k = 0 →
      expCount k (runFires s ts).2 = 0 := by
  induction ts with
  | nil => intro s _; simp [runFires, expCount]
  | cons t ts ih =>
      intro s hz
      simp only [runFires]
      cases hf : s.fireTimer t with
      | none => exact ih s hz
      | some r =>
          obtain ⟨s', evs⟩ := r
          obtain ⟨k', hmem, hevs, -⟩ := fireTimer_spec s t s' evs hf
          have hkk : k' ≠ k := by
            intro he
            have := (List.countP_eq_zero.mp hz) (t, k') hmem
            simp [he] at this
          have hz' : kTimers s' k = 0 :=
            Nat.le_zero.mp (hz ▸ (fireTimer_active_sublist s t s' evs hf).countP_le _)
          have hevsc : expCount k evs = 0 := by
            rw [hevs, expCount_expEvents, if_neg hkk]
          have hih := ih s' hz'
          simp only [expCount, List.countP_append] at hevsc hih ⊢
          omega

/-- With at most one armed timer for `k`, any sequence of fires
delivers at most one round of expiration notifications for `k`: one per
current subscription of `k`. -/
theorem runFires_expCount_le (k : String) (ts : List Nat) :
    ∀ s : SharedStateManager, GoodState s → kTimers s k ≤ 1 →
      expCount k (runFires s ts).2 ≤ (s.subscribers k).length := by
  induction ts with
  | nil => intro s _ _; simp [runFires, expCount]
  | cons t ts ih =>
      intro s g h1
      simp only [runFires]
      cases hf : s.fireTimer t with
      | none => exact ih s g h1
      | some r =>
          obtain ⟨s', evs⟩ := r
          obtain ⟨k', hmem, hevs, hs'⟩ := fireTimer_spec s t s' evs hf
          have g' := goodState_fire s t s' evs hf g
          have hsubs : s'.subscribers = s.subscribers := fireTimer_subscribers s t s' evs hf
          by_cases hkk : k' = k
          · subst hkk
            have hz' : kTimers s' k' = 0 := by
              simp only [kTimers]
              rw [List.countP_eq_zero]
              intro p hp
              have hpt : p.1 ≠ t := fireTimer_id_gone s t s' evs hf p hp
              have hpm : p ∈ s.activeTimers :=
                (fireTimer_active_sublist s t s' evs hf).mem hp
              intro hpk
              simp only [decide_eq_true_eq] at hpk
              have e1 : s.timers p.2 = some p.1 := g.timersOf p hpm
              have e2 : s.timers k' = some t := g.timersOf (t, k') hmem
              rw [hpk, e2] at e1
              exact hpt (by simpa using e1.symm)
            have hrest := runFires_expCount_zero k' ts s' hz'
            have hevsc : expCount k' evs = (s.subscribers k').length := by
              rw [hevs, expCount_expEvents, if_pos rfl]
            simp only [expCount, List.countP_append] at hevsc hrest ⊢
            omega
          · have h1' : kTimers s' k ≤ 1 :=
              le_trans ((fireTimer_active_sublist s t s' evs hf).countP_le _) h1
            have hrest := ih s' g' h1'
            rw [hsubs] at hrest
            have hevsc : expCount k evs = 0 := by
              rw [hevs, expCount_expEvents, if_neg hkk]
            simp only [expCount, List.countP_append] at hevsc hrest ⊢
            omega

/-- C2: for every key `k` and value `v`, and every store state,
immediately after `set(k, v)` a `get(k)` returns the pair `(v, true)`. -/
theorem C2_set_get : ∀ (s : SharedStateManager) (k : String) (v : Value)
    (s' : SharedStateManager) (evs : List Event),
    s.Set k v = some (s', evs) → s'.Get k = (v, true) := by
  intro s k v s' evs h
  obtain ⟨hs, -⟩ := Set_spec s k v s' evs h
  subst hs
  simp [SharedStateManager.Get]

/-- Store obtained by setting key `k` to `"a"` in a fresh store. -/
def c2post : SharedStateManager :=
  { NewSharedStateManager with
    stateMap := fun k => if k = "k" then some (Value.str "a") else NewSharedStateManager.stateMap k }

/-- Witness for C2 at a concrete input. -/
theorem C2_set_get_witness :
    NewSharedStateManager.Set "k" (Value.str "a") = some (c2post, []) ∧
    c2post.Get "k" = (Value.str "a", true) :=
  ⟨rfl, C2_set_get NewSharedStateManager "k" (Value.str "a") c2post [] rfl⟩

/-- C3: `setWithTimeout(k, v, d)` always delivers the new value to
every current subscriber of `k`, in registration order, regardless of
any conditional flag and of any previously held value: its event list
is always the full map over the subscriber list (and the call itself
never panics). -/
theorem C3_timed_set_notifies_all : ∀ (s : SharedStateManager) (k : String) (v : Value)
    (d : Int),
    (s.SetWithTimeout k v d).map Prod.snd =
      some ((s.subscribers k).map (fun sub => (sub.Channel, v))) := by
  intro s k v d
  rw [SetWithTimeout_eq]
  rfl

/-- C8: `getString(k)` returns found=false when `k` is absent or holds
a value whose dynamic type is not a string, and returns the stored
string with found=true when `k` holds a string.  The accessor is a pure
function of the store state (its embedding takes the state and returns
only the pair), so it has no side effects. -/
theorem C8_getString : ∀ (s : SharedStateManager) (k : String) (v : Value) (t : String),
    (s.stateMap k = none → s.GetString k = ("", false)) ∧
    (s.stateMap k = some v → isStringVal v = false → (s.GetString k).2 = false) ∧
    (s.stateMap k = some (Value.str t) → s.GetString k = (t, true)) := by
  intro s k v t
  refine ⟨?_, ?_, ?_⟩
  · intro h; simp [SharedStateManager.GetString, h]
  · intro h hv; cases v <;> simp_all [SharedStateManager.GetString, isStringVal]
  · intro h; simp [SharedStateManager.GetString, h]

/-- Store holding a string under "s" and an integer under "n". -/
def c8state : SharedStateManager :=
  { NewSharedStateManager with
    stateMap := fun k =>
      if k = "s" then some (Value.str "x")
      else if k = "n" then some (Value.intV 3) else none }

/-- Witness for C8 at concrete inputs: an absent key, a non-string key
and a string key. -/
theorem C8_getString_witness :
    c8state.GetString "a" = ("", false) ∧ (c8state.GetString "n").2 = false ∧
    c8state.GetString "s" = ("x", true) :=
  ⟨(C8_getString c8state "a" (Value.intV 3) "x").1 rfl,
   (C8_getString c8state "n" (Value.intV 3) "x").2.1 rfl rfl,
   (C8_getString c8state "s" (Value.intV 3) "x").2.2 rfl⟩

/-- C9: `getStruct` returns exactly the same pair as `get` on every
store state and key: the two accessors are extensionally equal. -/
theorem C9_getStruct_equals_get : ∀ (s : SharedStateManager) (k : String),
    s.GetStruct k = s.Get k := by
  intro s k
  cases h : s.stateMap k <;>
    simp [SharedStateManager.Get, SharedStateManager.GetStruct, h]

/-- Store holding a slice under "k" with a conditional subscriber:
the configuration under which the dispatch guard of `Set` evaluates the
interface comparison on two slices. -/
def c10state : SharedStateManager :=
  { NewSharedStateManager with
    stateMap := fun k => if k = "k" then some (Value.slice "[]int" 0) else none
    subscribers := fun k => if k = "k" then [⟨0, true⟩] else [] }

/-- C10 counterexample: `Set` is not total.  With key "k" holding a
`[]int` slice and a conditional subscriber registered, setting "k" to
another `[]int` slice evaluates `oldValue != value` on two values of
the same non-comparable dynamic type, which is a run-time panic
(modelled as `none`). -/
theorem C10_counterexample : c10state.Set "k" (Value.slice "[]int" 1) = none := rfl

/-- C10 amended: `Set(k, v)` completes normally for every store state
and key whenever the dynamic type of `v` is comparable; the fault is
confined to non-comparable new values compared against an old value of
the same non-comparable dynamic type. -/
theorem C10_set_total_comparable : ∀ (s : SharedStateManager) (k : String) (v : Value),
    comparableVal v = true → (s.Set k v).isSome = true := by
  intro s k v h
  simp only [SharedStateManager.Set, SharedStateManager.notifySubscribers]
  have hn := notifyLoop_isSome v ((s.stateMap k).getD .nilV) (s.stateMap k).isSome h
    (s.subscribers k)
  cases hc : notifyLoop (s.subscribers k) v (s.stateMap k).isSome ((s.stateMap k).getD .nilV) with
  | none => rw [hc] at hn; simp at hn
  | some evs => simp

/-- Witness for the amended C10 at a concrete comparable value. -/
theorem C10_set_total_comparable_witness :
    comparableVal (Value.str "a") = true ∧
    (c10state.Set "k" (Value.str "a")).isSome = true :=
  ⟨rfl, C10_set_total_comparable c10state "k" (Value.str "a") rfl⟩

/-- C1: on every non-panicking `set(k, v)`, the dispatched events are
exactly the new value sent, in registration order, to the subscribers
whose guard passes — conditional flag false, or key previously absent,
or old value unequal to the new one (`shouldNotify`).  Consequently,
setting an absent key to the same comparable value twice delivers
exactly one notification to a conditional subscriber of the key and two
to a non-conditional one. -/
theorem C1_conditional_dispatch :
    ∀ (s : SharedStateManager) (k : String) (v : Value) (s1 : SharedStateManager)
      (evs1 : List Event) (c1 c2 : Nat) (s2 : SharedStateManager) (evs2 : List Event),
    s.Set k v = some (s1, evs1) →
    (evs1 = ((s.subscribers k).filter
        (fun sub => shouldNotify sub v (s.stateMap k).isSome ((s.stateMap k).getD Value.nilV))).map
        (fun sub => (sub.Channel, v))) ∧
    (s.stateMap k = none → comparableVal v = true → c1 ≠ c2 →
      s.subscribers k = [⟨c1, true⟩, ⟨c2, false⟩] →
      s1.Set k v = some (s2, evs2) →
      (evs1 ++ evs2).countP (fun e => decide (e = (c1, v))) = 1 ∧
      (evs1 ++ evs2).countP (fun e => decide (e = (c2, v))) = 2) := by
  intro s k v s1 evs1 c1 c2 s2 evs2 hset
  obtain ⟨hs1, hn1⟩ := Set_spec s k v s1 evs1 hset
  constructor
  · exact notifyLoop_filter v ((s.stateMap k).getD Value.nilV) (s.stateMap k).isSome
      (s.subscribers k) evs1 hn1
  · intro hnone hcomp hne hsubs hset2
    obtain ⟨hs2, hn2⟩ := Set_spec s1 k v s2 evs2 hset2
    rw [hnone, hsubs] at hn1
    simp only [Option.isSome_none, Option.getD_none] at hn1
    rw [notifyLoop_not_exists] at hn1
    have hevs1 : evs1 = [(c1, v), (c2, v)] := by
      simpa using hn1.symm
    have hs1k : s1.stateMap k = some v := by rw [hs1]; simp
    have hs1subs : s1.subscribers k = [⟨c1, true⟩, ⟨c2, false⟩] := by
      rw [hs1]; exact hsubs
    rw [hs1k, hs1subs] at hn2
    simp only [Option.isSome_some, Option.getD_some] at hn2
    have hgo : goEq v v = some true := goEq_refl v hcomp
    have hevs2 : evs2 = [(c2, v)] := by
      simp only [notifyLoop, deliverTo, goNe, hgo, Option.map_some, Bool.not_true,
        Bool.not_false, if_false, if_true] at hn2
      simpa using hn2.symm
    rw [hevs1, hevs2]
    have hc21 : ((c2, v) = (c1, v)) = False := by
      simp [Prod.ext_iff]
      intro h
      exact absurd h.symm hne
    have hc12 : ((c1, v) = (c2, v)) = False := by
      simp [Prod.ext_iff]
      intro h
      exact absurd h hne
    constructor <;>
      simp [List.countP_cons, List.countP_nil, hc21, hc12]

/-- Fresh store with a conditional subscriber (channel 1) and a
non-conditional subscriber (channel 2) on key "k". -/
def c1base : SharedStateManager :=
  { NewSharedStateManager with
    subscribers := fun k => if k = "k" then [⟨1, true⟩, ⟨2, false⟩] else [] }

/-- `c1base` after the first `Set "k" "a"`. -/
def c1mid : SharedStateManager :=
  { c1base with
    stateMap := fun k => if k = "k" then some (Value.str "a") else c1base.stateMap k }

/-- `c1mid` after the second `Set "k" "a"`. -/
def c1post : SharedStateManager :=
  { c1mid with
    stateMap := fun k => if k = "k" then some (Value.str "a") else c1mid.stateMap k }

/-- Witness for C1 at a concrete double-set: the conditional subscriber
(channel 1) receives once, the non-conditional one (channel 2) twice. -/
theorem C1_conditional_dispatch_witness :
    c1base.Set "k" (Value.str "a") = some (c1mid, [(1, Value.str "a"), (2, Value.str "a")]) ∧
    c1mid.Set "k" (Value.str "a") = some (c1post, [(2, Value.str "a")]) ∧
    ([(1, Value.str "a"), (2, Value.str "a")] ++ [(2, Value.str "a")]).countP
      (fun e => decide (e = (1, Value.str "a"))) = 1 ∧
    ([(1, Value.str "a"), (2, Value.str "a")] ++ [(2, Value.str "a")]).countP
      (fun e => decide (e = (2, Value.str "a"))) = 2 :=
  ⟨rfl, rfl,
   ((C1_conditional_dispatch c1base "k" (Value.str "a") c1mid
      [(1, Value.str "a"), (2, Value.str "a")] 1 2 c1post [(2, Value.str "a")] rfl).2
      rfl rfl (by decide) rfl rfl).1,
   ((C1_conditional_dispatch c1base "k" (Value.str "a") c1mid
      [(1, Value.str "a"), (2, Value.str "a")] 1 2 c1post [(2, Value.str "a")] rfl).2
      rfl rfl (by decide) rfl rfl).2⟩

/-- C6: `delete(k)` removes the entry for `k`, cancels and removes any
timer for `k`, and dispatches an expiration notification carrying `k`
to every current subscriber of `k` regardless of each conditional flag;
when `k` is absent the state is left unchanged while the expiration
notifications are still delivered. -/
theorem C6_delete :
    ∀ (s : SharedStateManager) (k : String) (t : Nat) (k' : String),
    Reachable s →
    (s.Delete k).2 = (s.subscribers k).map (fun sub => (sub.Channel, Value.expNotif k)) ∧
    (s.Delete k).1.stateMap k = none ∧
    (s.Delete k).1.timers k = none ∧
    (s.timers k = some t → (t, k') ∉ (s.Delete k).1.activeTimers) ∧
    (s.Delete k).1.subscribers = s.subscribers ∧
    (s.stateMap k = none → (s.Delete k).1 = s) := by
  intro s k t k' hr
  have g := reachable_goodState s hr
  refine ⟨?_, ?_, ?_, ?_, ?_, ?_⟩
  · rw [Delete_eq_expireKey]; exact expireKey_events s k
  · rw [Delete_eq_expireKey, expireKey_stateMap]; simp
  · rw [Delete_eq_expireKey]; exact expireKey_timers_self s k
  · intro htk hmem
    rw [Delete_eq_expireKey] at hmem
    simp only [SharedStateManager.expireKey, htk] at hmem
    have := List.of_mem_filter hmem
    simp at this
  · rw [Delete_eq_expireKey]; exact expireKey_subscribers s k
  · intro hnone
    have ht := g.stateTimers k hnone
    rw [Delete_eq_expireKey]
    simp only [SharedStateManager.expireKey, ht]
    have hm : (fun k1 => if k1 = k then none else s.stateMap k1) = s.stateMap := by
      funext k1
      by_cases hk : k1 = k
      · rw [if_pos hk, hk, hnone]
      · rw [if_neg hk]
    rw [hm]

/-- Witness for C6 at a concrete input: deleting an absent key in a
fresh store delivers the (empty) expiration round and leaves the state
unchanged. -/
theorem C6_delete_witness :
    (NewSharedStateManager.Delete "k").2 =
      (NewSharedStateManager.subscribers "k").map
        (fun sub => (sub.Channel, Value.expNotif "k")) ∧
    (NewSharedStateManager.Delete "k").1 = NewSharedStateManager :=
  ⟨(C6_delete NewSharedStateManager "k" 0 "k" Relation.ReflTransGen.refl).1,
   (C6_delete NewSharedStateManager "k" 0 "k" Relation.ReflTransGen.refl).2.2.2.2.2 rfl⟩

/-- C7: a plain `set(k, v)` never cancels, removes or modifies any
expiration timer or subscription: the timer map, the armed-timer set,
the subscriber registry and the identity counter are exactly as before
the call, so a timer previously armed for `k` can still fire and, when
it does, it removes the freshly set value. -/
theorem C7_set_preserves_timers :
    ∀ (s : SharedStateManager) (k : String) (v : Value) (s' : SharedStateManager)
      (evs : List Event) (t : Nat) (s2 : SharedStateManager) (evs2 : List Event),
    Reachable s →
    s.Set k v = some (s', evs) →
    s'.timers = s.timers ∧ s'.activeTimers = s.activeTimers ∧
    s'.subscribers = s.subscribers ∧ s'.nextTimerId = s.nextTimerId ∧
    (s.timers k = some t → (t, k) ∈ s.activeTimers → (s'.fireTimer t).isSome = true) ∧
    (s.timers k = some t → s'.fireTimer t = some (s2, evs2) → s2.stateMap k = none) := by
  intro s k v s' evs t s2 evs2 hr hset
  have g := reachable_goodState s hr
  have g' := goodState_Set s k v s' evs hset g
  obtain ⟨hs, -⟩ := Set_spec s k v s' evs hset
  refine ⟨by rw [hs], by rw [hs], by rw [hs], by rw [hs], ?_, ?_⟩
  · intro htk hmem
    have hmem' : (t, k) ∈ s'.activeTimers := by rw [hs]; exact hmem
    cases hf : s'.activeTimers.find? (fun p => decide (p.1 = t)) with
    | none =>
        have := List.find?_eq_none.mp hf (t, k) hmem'
        simp at this
    | some p => simp [SharedStateManager.fireTimer, hf]
  · intro htk hfire
    obtain ⟨k2, hmem2, -, hs2⟩ := fireTimer_spec s' t s2 evs2 hfire
    have htk' : s'.timers k = some t := by rw [hs]; exact htk
    have hk2 : k2 = k := g'.timersInj k2 k t (g'.timersOf (t, k2) hmem2) htk'
    rw [hs2, hk2]
    have hclear : (s'.expireKey k).1.stateMap k = none := by
      rw [expireKey_stateMap]; simp
    exact hclear

/-- Fresh store after `SetWithTimeout "k" "a" 5`: holds "a" under "k"
with timer 0 armed for "k". -/
def c7base : SharedStateManager :=
  { stateMap := fun k => if k = "k" then some (Value.str "a") else NewSharedStateManager.stateMap k
    timers := fun k => if k = "k" then some 0 else NewSharedStateManager.timers k
    activeTimers := [(0, "k")]
    nextTimerId := 1
    subscribers := NewSharedStateManager.subscribers }

/-- `c7base` is a program state: it arises from one timed set on a
fresh store. -/
theorem c7base_reachable : Reachable c7base :=
  Relation.ReflTransGen.tail Relation.ReflTransGen.refl
    (Step.setWithTimeout NewSharedStateManager "k" (Value.str "a") 5 c7base [] rfl)

/-- `c7base` after a plain `Set "k" "b"`: the timer survives. -/
def c7post : SharedStateManager :=
  { c7base with
    stateMap := fun k => if k = "k" then some (Value.str "b") else c7base.stateMap k }

/-- Witness for C7 at a concrete input: after overwriting the timed key
with a plain set, the original timer is still armed and can fire. -/
theorem C7_set_preserves_timers_witness :
    Reachable c7base ∧
    c7base.Set "k" (Value.str "b") = some (c7post, []) ∧
    c7post.timers = c7base.timers ∧
    (c7post.fireTimer 0).isSome = true :=
  ⟨c7base_reachable, rfl,
   (C7_set_preserves_timers c7base "k" (Value.str "b") c7post [] 0 c7post []
      c7base_reachable rfl).1,
   (C7_set_preserves_timers c7base "k" (Value.str "b") c7post [] 0 c7post []
      c7base_reachable rfl).2.2.2.2.1 rfl (by decide)⟩


/-- Get reports not-found on a key without an entry. -/
theorem Get_eq_of_none (s : SharedStateManager) (k : String) (h : s.stateMap k = none) :
    s.Get k = (Value.nilV, false) := by
  simp [SharedStateManager.Get, h]

/-- C4: after `setWithTimeout(k, v, d)` and the firing of the armed
timer with no intervening operation on `k`, `get(k)` reports not-found
and the fire delivers exactly one expiration notification carrying `k`
per subscription of `k`, conditional or not (per channel, the count of
expiration events equals the number of subscriptions on that channel). -/
theorem C4_timed_expiration :
    ∀ (s : SharedStateManager) (k : String) (v : Value) (d : Int)
      (s1 : SharedStateManager) (evs1 : List Event) (s2 : SharedStateManager)
      (evs2 : List Event) (c : Nat),
    s.SetWithTimeout k v d = some (s1, evs1) →
    s1.fireTimer s.nextTimerId = some (s2, evs2) →
    s2.Get k = (Value.nilV, false) ∧
    evs2 = (s.subscribers k).map (fun sub => (sub.Channel, Value.expNotif k)) ∧
    evs2.countP (fun e => decide (e = (c, Value.expNotif k))) =
      (s.subscribers k).countP (fun sub => decide (sub.Channel = c)) := by
  intro s k v d s1 evs1 s2 evs2 c hswt hfire
  rw [SetWithTimeout_eq] at hswt
  simp only [Option.some.injEq, Prod.mk.injEq] at hswt
  obtain ⟨hs1, -⟩ := hswt
  rw [← hs1] at hfire
  simp only [SharedStateManager.fireTimer, List.find?_cons_of_pos, decide_eq_true_eq] at hfire
  simp only [Option.some.injEq, Prod.mk.injEq] at hfire
  obtain ⟨hs2, hevs2⟩ := hfire
  have hevmap : evs2 = (s.subscribers k).map (fun sub => (sub.Channel, Value.expNotif k)) := by
    rw [← hevs2, expireKey_events]
  refine ⟨?_, hevmap, ?_⟩
  · rw [← hs2]
    refine Get_eq_of_none _ k ?_
    show (SharedStateManager.expireKey _ k).1.stateMap k = none
    rw [expireKey_stateMap]
    simp
  · rw [hevmap, List.countP_map]
    refine List.countP_congr ?_
    intro sub _
    simp [Function.comp, Prod.ext_iff]

/-- Fresh store with one conditional subscriber (channel 7) on "k". -/
def c4base : SharedStateManager :=
  { NewSharedStateManager with
    subscribers := fun k => if k = "k" then [⟨7, true⟩] else [] }

/-- `c4base` after `SetWithTimeout "k" "a" 5`. -/
def c4mid : SharedStateManager :=
  { stateMap := fun k => if k = "k" then some (Value.str "a") else c4base.stateMap k
    timers := fun k => if k = "k" then some 0 else c4base.timers k
    activeTimers := [(0, "k")]
    nextTimerId := 1
    subscribers := c4base.subscribers }

/-- `c4mid` after timer 0 fires. -/
def c4fired : SharedStateManager :=
  { c4mid with
    stateMap := fun k => if k = "k" then none else c4mid.stateMap k
    timers := fun k => if k = "k" then none else c4mid.timers k
    activeTimers := [] }

/-- Witness for C4 at a concrete input: the conditional subscriber on
channel 7 receives the expiration and the key is gone. -/
theorem C4_timed_expiration_witness :
    c4base.SetWithTimeout "k" (Value.str "a") 5 = some (c4mid, [(7, Value.str "a")]) ∧
    c4mid.fireTimer 0 = some (c4fired, [(7, Value.expNotif "k")]) ∧
    c4fired.Get "k" = (Value.nilV, false) ∧
    [(7, Value.expNotif "k")] =
      (c4base.subscribers "k").map (fun sub => (sub.Channel, Value.expNotif "k")) :=
  ⟨rfl, rfl,
   (C4_timed_expiration c4base "k" (Value.str "a") 5 c4mid [(7, Value.str "a")] c4fired
      [(7, Value.expNotif "k")] 7 rfl rfl).1,
   (C4_timed_expiration c4base "k" (Value.str "a") 5 c4mid [(7, Value.str "a")] c4fired
      [(7, Value.expNotif "k")] 7 rfl rfl).2.1⟩

/-- C5: re-arming a key's timer before the first fires: the superseded
timer leaves the armed set during the second call (it is stopped before
the new one is installed) and can never fire afterwards, and over every
subsequent sequence of timer fires at most one round of expiration
notifications for `k` is delivered (at most one per subscription),
driven by the second call's timer. -/
theorem C5_rearm_single_expiration :
    ∀ (s : SharedStateManager) (k : String) (v1 : Value) (d1 : Int) (v2 : Value) (d2 : Int)
      (s1 : SharedStateManager) (evs1 : List Event) (s2 : SharedStateManager)
      (evs2 : List Event) (k' : String) (ts : List Nat),
    Reachable s →
    s.SetWithTimeout k v1 d1 = some (s1, evs1) →
    s1.SetWithTimeout k v2 d2 = some (s2, evs2) →
    ((s.nextTimerId, k') ∉ s2.activeTimers) ∧
    (runFires s2 ts).1.fireTimer s.nextTimerId = none ∧
    expCount k (runFires s2 ts).2 ≤ (s.subscribers k).length := by
  intro s k v1 d1 v2 d2 s1 evs1 s2 evs2 k' ts hr h1 h2
  have g := reachable_goodState s hr
  have g1 := goodState_SetWithTimeout s k v1 d1 s1 evs1 h1 g
  have g2 := goodState_SetWithTimeout s1 k v2 d2 s2 evs2 h2 g1
  rw [SetWithTimeout_eq] at h1 h2
  simp only [Option.some.injEq, Prod.mk.injEq] at h1 h2
  obtain ⟨hs1, -⟩ := h1
  obtain ⟨hs2, -⟩ := h2
  have hs1timers : s1.timers k = some s.nextTimerId := by rw [← hs1]; simp
  have hs1next : s1.nextTimerId = s.nextTimerId + 1 := by rw [← hs1]
  have hs1subs : s1.subscribers = s.subscribers := by rw [← hs1]
  have hs1active : s1.activeTimers = (s.nextTimerId, k) ::
      (match s.timers k with
       | some t => s.activeTimers.filter (fun p => decide (p.1 ≠ t))
       | none => s.activeTimers) := by rw [← hs1]
  have hs2active : s2.activeTimers = (s1.nextTimerId, k) ::
      s1.activeTimers.filter (fun p => decide (p.1 ≠ s.nextTimerId)) := by
    rw [← hs2, hs1timers]
  have hno : ∀ p ∈ s2.activeTimers, p.1 ≠ s.nextTimerId := by
    intro p hp
    rw [hs2active] at hp
    rcases List.mem_cons.mp hp with hp | hp
    · rw [hp, hs1next]; simp
    · simpa using List.of_mem_filter hp
  have hstop : ∀ p ∈ (match s.timers k with
      | some t => s.activeTimers.filter (fun q : Nat × String => decide (q.1 ≠ t))
      | none => s.activeTimers), p.2 ≠ k := by
    intro p hp hpk
    have hpm : p ∈ s.activeTimers := by
      cases ht : s.timers k with
      | none => rw [ht] at hp; exact hp
      | some t0 => rw [ht] at hp; exact List.mem_of_mem_filter hp
    have hto := g.timersOf p hpm
    rw [hpk] at hto
    rw [hto] at hp
    have := List.of_mem_filter hp
    simp at this
  have h1k : kTimers s2 k ≤ 1 := by
    have hz : (s1.activeTimers.filter (fun p => decide (p.1 ≠ s.nextTimerId))).countP
        (fun p => decide (p.2 = k)) = 0 := by
      rw [List.countP_eq_zero]
      intro p hp
      have hin := List.of_mem_filter hp
      have hpm := List.mem_of_mem_filter hp
      rw [hs1active] at hpm
      rcases List.mem_cons.mp hpm with he | hm
      · rw [he] at hin; simp at hin
      · have := hstop p hm
        simpa using this
    rw [kTimers, hs2active, List.countP_cons, hz]
    simp
  refine ⟨fun hmem => hno _ hmem rfl, runFires_fireTimer_none _ ts s2 hno, ?_⟩
  have hb := runFires_expCount_le k ts s2 g2 h1k
  have hsub2 : s2.subscribers = s.subscribers := by
    rw [← hs2]
    exact hs1subs
  rw [hsub2] at hb
  exact hb

/-- Fresh store after `SetWithTimeout "k" "a" 5`: timer 0 armed. -/
def c5s1 : SharedStateManager :=
  { stateMap := fun k => if k = "k" then some (Value.str "a") else NewSharedStateManager.stateMap k
    timers := fun k => if k = "k" then some 0 else NewSharedStateManager.timers k
    activeTimers := [(0, "k")]
    nextTimerId := 1
    subscribers := NewSharedStateManager.subscribers }

/-- `c5s1` after `SetWithTimeout "k" "b" 7`: timer 0 stopped, timer 1
armed. -/
def c5s2 : SharedStateManager :=
  { stateMap := fun k => if k = "k" then some (Value.str "b") else c5s1.stateMap k
    timers := fun k => if k = "k" then some 1 else c5s1.timers k
    activeTimers := [(1, "k")]
    nextTimerId := 2
    subscribers := c5s1.subscribers }

/-- Witness for C5 at a concrete input: after re-arming, timer 0 is
gone, cannot fire even after timer 1 fires, and the fire sequence
delivers at most one expiration round for "k". -/
theorem C5_rearm_single_expiration_witness :
    NewSharedStateManager.SetWithTimeout "k" (Value.str "a") 5 = some (c5s1, []) ∧
    c5s1.SetWithTimeout "k" (Value.str "b") 7 = some (c5s2, []) ∧
    ((0, "k") ∉ c5s2.activeTimers ∧
     (runFires c5s2 [1]).1.fireTimer 0 = none ∧
     expCount "k" (runFires c5s2 [1]).2 ≤ (NewSharedStateManager.subscribers "k").length) :=
  ⟨rfl, rfl,
   C5_rearm_single_expiration NewSharedStateManager "k" (Value.str "a") 5 (Value.str "b") 7
     c5s1 [] c5s2 [] "k" [1] Relation.ReflTransGen.refl rfl rfl⟩
